import Mathlib

/-!
Shallow embedding of `src/bot.py` (Pro Liquidity Matrix Bot).

Prices and volumes are modelled as exact rationals (the Python source
computes with IEEE doubles; no claim below depends on a float rounding
boundary).  Python's `round(x, n)` (banker's rounding) is modelled by
half-up rounding to `n` decimals; the two agree except at exact half-ulp
ties, which no claim touches, and every proof below only uses the bound
`|roundTo n x - x| <= 1/(2*10^n)`, valid for both.
-/

set_option allowUnsafeReducibility true in
attribute [semireducible] Rat.inv Rat.mul Rat.add Rat.sub Rat.ofScientific

/-- One OHLCV candle, as produced by `parse_candles` in the source
(`open` is a Lean keyword, hence the field name `open_`). -/
structure Candle where
  open_ : ℚ
  high : ℚ
  low : ℚ
  close : ℚ
  volume : ℚ
deriving DecidableEq, Repr

/-- Strategy constant `LOOKBACK_15M = 12` from the source. -/
def LOOKBACK_15M : ℕ := 12

/-- Strategy constant `RETAIL_CLUSTER_BAND = 0.15` from the source. -/
def RETAIL_CLUSTER_BAND : ℚ := 3/20

/-- Strategy constant `MAX_ALERTS_PER_DAY = 2` from the source. -/
def MAX_ALERTS_PER_DAY : ℕ := 2

/-- Strategy constant `XAU_SL_PIPS = 20` from the source. -/
def XAU_SL_PIPS : ℚ := 20

/-- Strategy constant `BTC_SL_USD = 350` from the source. -/
def BTC_SL_USD : ℚ := 350

/-- Strategy constant `RR = 4.0` from the source. -/
def RR : ℚ := 4

/-- Result of `detect_sweep_and_green`: the source returns a dict with
`signal` false and a reason, or `signal` true with the sweep and confirm
candles and `sweep_index_from_end`.  `accessError` models a Python
`IndexError` on a list access (it is proved unreachable). -/
inductive SweepResult where
  | insufficientData
  | noSweepFound
  | accessError
  | signal (sweep confirm : Candle) (sweepIndexFromEnd : ℕ)
deriving DecidableEq, Repr

/-- The window `candles_15m[-(lookback+1):]` (newest `lookback+1` candles,
oldest first; the whole list when it is shorter). -/
def sweepWindow (candles : List Candle) (lookback : ℕ) : List Candle :=
  candles.drop (candles.length - (lookback + 1))

/-- The quantity the source names `lower_wick`:
`(open - low) if open > close else (close - low)`.
Note this is the distance from the TOP of the candle body down to the low
(body plus lower wick), not the wick below the body. -/
def lowerWick (c : Candle) : ℚ :=
  if c.open_ > c.close then c.open_ - c.low else c.close - c.low

/-- The denominator `max(high - low, 1e-6)` used by the source. -/
def sweepRange (c : Candle) : ℚ :=
  max (c.high - c.low) (1/1000000)

/-- The loop `for i in range(1, len(window)-1)` of `detect_sweep_and_green`,
with the three nested tests exactly as in the source.  `fuel` is an upper
bound on the remaining iterations (the caller passes `w.length`, which is
ample); list accesses go through `List.get?` so that an out-of-range
access is observable as `accessError`. -/
def scanFromAux (w : List Candle) : ℕ → ℕ → SweepResult
  | 0, _ => .noSweepFound
  | fuel + 1, i =>
    if i + 1 < w.length then
      match w.get? (i - 1), w.get? i, w.get? (i + 1) with
      | some prev_c, some c, some next_c =>
        if c.low < prev_c.low ∧ c.low < next_c.low then
          if lowerWick c / sweepRange c > 7/20 then
            if next_c.close > next_c.open_ then
              .signal c next_c (w.length - (i + 1))
            else scanFromAux w fuel (i + 1)
          else scanFromAux w fuel (i + 1)
        else scanFromAux w fuel (i + 1)
      | _, _, _ => .accessError
    else .noSweepFound

/-- `detect_sweep_and_green(candles_15m, lookback)` from the source:
guard `len(candles_15m) < lookback + 2`, then scan the interior candles of
the newest `lookback+1` window, oldest to newest, returning at the first
candle that is a local minimum of lows, passes the `lower_wick` ratio
test, and is followed by a green candle. -/
def detect_sweep_and_green (candles_15m : List Candle) (lookback : ℕ) : SweepResult :=
  if candles_15m.length < lookback + 2 then .insufficientData
  else scanFromAux (sweepWindow candles_15m lookback) (sweepWindow candles_15m lookback).length 1

/-- The three tests of `detect_sweep_and_green` at interior index `i` of a
window `w` (the source's local-minimum, wick-ratio and green-confirm
conditions). -/
def sweepQual (w : List Candle) (i : ℕ) : Prop :=
  ∃ p c nx, w.get? (i - 1) = some p ∧ w.get? i = some c ∧ w.get? (i + 1) = some nx ∧
    (c.low < p.low ∧ c.low < nx.low) ∧
    lowerWick c / sweepRange c > 7/20 ∧
    nx.close > nx.open_

/-- The two instruments the bot analyzes (`SYMBOL_XAU = "XAU/USD"`,
`SYMBOL_BTC = "BTC/USD"`); the source classifies a symbol by the test
`"XAU" in symbol.upper()`. -/
inductive Instrument where
  | XAU_USD
  | BTC_USD
deriving DecidableEq, Repr

/-- `is_xau = "XAU" in symbol.upper()` for the two symbols the bot uses. -/
def isXau : Instrument → Bool
  | .XAU_USD => true
  | .BTC_USD => false

/-- `pip_val = 0.01 if is_xau else 1.0`. -/
def pip_val (symbol : Instrument) : ℚ :=
  if isXau symbol then 1/100 else 1

/-- `sl_distance = XAU_SL_PIPS * pip_val if is_xau else BTC_SL_USD`. -/
def sl_distance (symbol : Instrument) : ℚ :=
  if isXau symbol then XAU_SL_PIPS * pip_val symbol else BTC_SL_USD

/-- Rounding precision `3 if is_xau else 2` used for entry/sl/tp/tp1. -/
def roundPrec (symbol : Instrument) : ℕ :=
  if isXau symbol then 3 else 2

/-- Python's `round(x, n)` to `n` decimal places (half-up instead of the
source's half-even; the difference only shows at exact half-ulp ties). -/
def roundTo (n : ℕ) (x : ℚ) : ℚ :=
  ((round (x * 10 ^ n) : ℤ) : ℚ) / 10 ^ n

/-- Plan side, the source's strings `"LONG"` / `"SHORT"`. -/
inductive Side where
  | LONG
  | SHORT
deriving DecidableEq, Repr

/-- Cluster side, the source's strings `"BUY"` / `"SELL"` / `"none"`. -/
inductive ClusterSide where
  | BUY
  | SELL
  | NONE
deriving DecidableEq, Repr

/-- Result dict of `detect_retail_stop_cluster`.  The source's `"none"`
dict carries no price/count/band keys; here those fields are filled with
zeros (resp. the band argument) — the builder only reads `cluster_price`
and `band` behind a side check, so the fillers are never observed. -/
structure RetailCluster where
  side : ClusterSide
  cluster_price : ℚ
  count : ℕ
  band : ℚ
deriving DecidableEq, Repr

/-- The part of the `detect_volume_footprint` result dict consumed by
`build_trade_plan` (`footprint.get("footprint")`); the detector's other
keys (`vol`, `mean`, `dir_same`) feed only message formatting. -/
structure FootprintSignal where
  footprint : Bool
deriving DecidableEq, Repr

/-- Result of `compute_liquidity_zones` (all `None` on an empty window).
`build_trade_plan` receives but never reads it. -/
structure LiquidityZone where
  recent_low : Option ℚ
  recent_high : Option ℚ
  last_close : Option ℚ
deriving DecidableEq, Repr

/-- `compute_liquidity_zones(candles)` from the source. -/
def compute_liquidity_zones (candles : List Candle) : LiquidityZone :=
  { recent_low := (candles.map (·.low)).min?
    recent_high := (candles.map (·.high)).max?
    last_close := (candles.getLast?).map (·.close) }

/-- The trade plan dict produced by `build_trade_plan`. -/
structure TradePlan where
  symbol : Instrument
  side : Side
  entry : ℚ
  sl : ℚ
  tp : ℚ
  tp1 : ℚ
  confidence : ℚ
  logic : String
deriving DecidableEq, Repr

/-- LONG entry candidate
`max(confirm_open + pip_val*2, (confirm_close + sweep_low) / 2)`. -/
def entry_candidate_long (sweep confirm : Candle) (pip : ℚ) : ℚ :=
  max (confirm.open_ + pip * 2) ((confirm.close + sweep.low) / 2)

/-- SHORT entry candidate
`min(confirm_open - pip_val*2, (confirm_close + sweep_high) / 2)`. -/
def entry_candidate_short (sweep confirm : Candle) (pip : ℚ) : ℚ :=
  min (confirm.open_ - pip * 2) ((confirm.close + sweep.high) / 2)

/-- The LONG anti-cluster nudge of `build_trade_plan`: if a BUY-side
cluster exists and the candidate is within one band of the cluster price,
move the entry to `cluster + band + pip_val*1`; otherwise keep it. -/
def nudge_long (cand : ℚ) (rc : RetailCluster) (pip : ℚ) : ℚ :=
  if rc.side = .BUY ∧ |cand - rc.cluster_price| ≤ rc.band then
    rc.cluster_price + rc.band + pip * 1
  else cand

/-- The SHORT anti-cluster nudge of `build_trade_plan`: if a SELL-side
cluster exists and the candidate is within one band of the cluster price,
move the entry to `cluster - band - pip_val*1`; otherwise keep it. -/
def nudge_short (cand : ℚ) (rc : RetailCluster) (pip : ℚ) : ℚ :=
  if rc.side = .SELL ∧ |cand - rc.cluster_price| ≤ rc.band then
    rc.cluster_price - rc.band - pip * 1
  else cand

/-- The confidence score of `build_trade_plan`: base 0.5, +0.2 pattern,
+0.15 footprint, +0.1 when no retail cluster side, capped at 0.95. -/
def planConfidence (retail_cluster : RetailCluster) (footprint : FootprintSignal) : ℚ :=
  min (19/20)
    (1/2 + 1/5 + (if footprint.footprint then 3/20 else 0) +
      (if retail_cluster.side = .NONE then 1/10 else 0))

/-- `build_trade_plan` from the source.  `latest_15m`, `latest_5m` and
`liquidity` are accepted, as in the source, but never read. -/
def build_trade_plan (symbol : Instrument) (sweep confirm : Candle)
    (latest_15m latest_5m : Candle) (liquidity : LiquidityZone)
    (retail_cluster : RetailCluster) (footprint : FootprintSignal) : TradePlan :=
  let pip := pip_val symbol
  let d := sl_distance symbol
  let n := roundPrec symbol
  let confidence := planConfidence retail_cluster footprint
  if confirm.close > confirm.open_ then
    let e := nudge_long (entry_candidate_long sweep confirm pip) retail_cluster pip
    let sl0 := sweep.low - d
    let tp0 := e + (e - sl0) * RR
    let entry := roundTo n e
    let sl := roundTo n sl0
    let tp := roundTo n tp0
    { symbol := symbol, side := .LONG, entry := entry, sl := sl, tp := tp
      tp1 := roundTo n (entry + (tp - entry) * (1/2))
      confidence := confidence
      logic := "Sweep + Green confirm; avoid retail stops; footprint checked" }
  else
    let e := nudge_short (entry_candidate_short sweep confirm pip) retail_cluster pip
    let sl0 := sweep.high + d
    let tp0 := e - (sl0 - e) * RR
    let entry := roundTo n e
    let sl := roundTo n sl0
    let tp := roundTo n tp0
    { symbol := symbol, side := .SHORT, entry := entry, sl := sl, tp := tp
      tp1 := roundTo n (entry - (entry - tp) * (1/2))
      confidence := confidence
      logic := "Sweep + Green confirm; avoid retail stops; footprint checked" }

/-- `cluster_metric(values)` from `detect_retail_stop_cluster`: sort the
values ascending, then for each value count how many values lie within
`value ± band/2`, keeping the first value (in sorted order) attaining the
maximal count.  Returns `(max_count, best_center)`, with
`best_center = none` exactly when no count ever beat the initial 0.
`clusterStep` is one iteration of that loop. -/
def clusterStep (band : ℚ) (values_sorted : List ℚ) (acc : ℕ × Option ℚ) (v : ℚ) :
    ℕ × Option ℚ :=
  let cnt := (values_sorted.filter (fun x => v - band/2 ≤ x ∧ x ≤ v + band/2)).length
  if acc.1 < cnt then (cnt, some v) else acc

/-- The sorted fold of `cluster_metric` (see `clusterStep`). -/
def cluster_metric (band : ℚ) (values : List ℚ) : ℕ × Option ℚ :=
  let values_sorted := values.insertionSort (· ≤ ·)
  values_sorted.foldl (clusterStep band values_sorted) (0, none)

/-- The sample size `n = min(len(candles_5m), int(lookback_minutes/5))`. -/
def rcSampleSize (candles_5m : List Candle) (lookback_minutes : ℕ) : ℕ :=
  min candles_5m.length (lookback_minutes / 5)

/-- The window `candles_5m[-n:]`.  When `n = 0` the Python slice `[-0:]`
is `[0:]`, i.e. the whole list, which the branch below reproduces. -/
def rcWindow (candles_5m : List Candle) (lookback_minutes : ℕ) : List Candle :=
  let n := rcSampleSize candles_5m lookback_minutes
  if n = 0 then candles_5m else candles_5m.drop (candles_5m.length - n)

/-- The qualification threshold `max(3, int(n * 0.08))` (`int` truncates,
so this is `max 3 ⌊8n/100⌋`). -/
def rcThreshold (candles_5m : List Candle) (lookback_minutes : ℕ) : ℕ :=
  max 3 (rcSampleSize candles_5m lookback_minutes * 8 / 100)

/-- `detect_retail_stop_cluster(candles_5m, band, lookback_minutes)` from
the source: density metric over highs and over lows of the recent window;
highs (SELL) are tested first, then lows (BUY), each against the
threshold; otherwise side `"none"`.  The `best_center = none` fallbacks
are unreachable (a count ≥ 3 forces a center) and mirror returning the
`"none"` dict. -/
def detect_retail_stop_cluster (candles_5m : List Candle) (band : ℚ)
    (lookback_minutes : ℕ) : RetailCluster :=
  if candles_5m.isEmpty then ⟨.NONE, 0, 0, band⟩
  else
    let window := rcWindow candles_5m lookback_minutes
    let hm := cluster_metric band (window.map (·.high))
    let lm := cluster_metric band (window.map (·.low))
    let threshold := rcThreshold candles_5m lookback_minutes
    if threshold ≤ hm.1 then
      match hm.2 with
      | some p => ⟨.SELL, p, hm.1, band⟩
      | none => ⟨.NONE, 0, 0, band⟩
    else if threshold ≤ lm.1 then
      match lm.2 with
      | some p => ⟨.BUY, p, lm.1, band⟩
      | none => ⟨.NONE, 0, 0, band⟩
    else ⟨.NONE, 0, 0, band⟩

/-- Messages `job_post_open` hands to the Notifier: the scan header, a
formatted plan alert (it carries the plan's confidence, the datum the
counting logic reads), or the no-plan liquidity summary. -/
inductive Msg where
  | header
  | planAlert (conf : ℚ)
  | summary
deriving DecidableEq, Repr

/-- The global `alerts_today = {"count": 0, "date": None}` record. -/
structure AlertsToday where
  count : ℕ
  date : Option ℤ
deriving DecidableEq, Repr

/-- One instrument's `get_and_analyze` outcome, as far as `job_post_open`
inspects it: `some conf` when the analysis dict has a `"plan"` key with
that confidence, `none` when it has no plan (no signal, or an error
dict). -/
def AnalysisOutcome : Type := Option ℚ

/-- The body of the `for analysis in (x, b)` loop in `job_post_open`:
a qualifying plan (`confidence >= 0.65`) sends a plan alert and increments
the counter; anything else sends the liquidity summary. -/
def postOpenStep (acc : AlertsToday × List Msg) (a : Option ℚ) : AlertsToday × List Msg :=
  match a with
  | some conf =>
    if 13/20 ≤ conf then (⟨acc.1.count + 1, acc.1.date⟩, acc.2 ++ [Msg.planAlert conf])
    else (acc.1, acc.2 ++ [Msg.summary])
  | none => (acc.1, acc.2 ++ [Msg.summary])

/-- `job_post_open` from the source, with the analyses of the cycle's
instruments supplied as inputs (the source analyzes exactly two, XAU and
BTC): reset the counter on a date change, return silently when the daily
cap is already reached, otherwise send the header and process every
analysis — the cap is NOT re-checked inside the loop. -/
def job_post_open (alerts_today : AlertsToday) (today : ℤ)
    (analyses : List (Option ℚ)) : AlertsToday × List Msg :=
  let s := if alerts_today.date = some today then alerts_today else ⟨0, some today⟩
  if MAX_ALERTS_PER_DAY ≤ s.count then (s, [])
  else analyses.foldl postOpenStep (s, [Msg.header])

/-- A filler candle used on positions the scan never selects. -/
def cFill : Candle := ⟨5, 6, 4, 5, 0⟩

/-- A sweep candle with a dominant recovery from its low
(open 10, high 10.5, low 5, close 10.2). -/
def cGoodSweep : Candle := ⟨10, 21/2, 5, 51/5, 0⟩

/-- A green confirm candle (open 9, high 10, low 8, close 9.5). -/
def cGoodConfirm : Candle := ⟨9, 10, 8, 19/2, 0⟩

/-- A four-candle 15m series (lookback 2) on which the detector fires with
`cGoodSweep` as sweep and `cGoodConfirm` as confirm. -/
def exGoodSeries : List Candle := [cFill, ⟨9, 10, 8, 9, 0⟩, cGoodSweep, cGoodConfirm]

/-- A sweep candle whose body sits high above the low: open 1, high 10,
low 0, close 9.  The source's `lower_wick` value is `close - low = 9`
(ratio 0.9), while the wick below the body is `open - low = 1`
(ratio 0.1). -/
def cBigBodySweep : Candle := ⟨1, 10, 0, 9, 0⟩

/-- A green confirm candle for `cBigBodySweep` (open 2, high 4, low 1,
close 3). -/
def cBigBodyConfirm : Candle := ⟨2, 4, 1, 3, 0⟩

/-- A four-candle 15m series (lookback 2) on which the detector fires even
though the sweep candle's wick below its body is only 10% of its range. -/
def exBigBodySeries : List Candle := [cFill, cFill, cBigBodySweep, cBigBodyConfirm]

/-- Forty 5m candles realizing the spec's retail-cluster example: 35 highs
spread one unit apart (1900..1934) and 5 highs at exactly 1950, all lows
pairwise more than one band apart. -/
def exClusterSeries : List Candle :=
  ((List.range 35).map fun k =>
    ⟨1900 + (k : ℚ), 1900 + (k : ℚ), 1800 + (k : ℚ), 1900 + (k : ℚ), 0⟩) ++
  [⟨1950, 1950, 1750, 1950, 0⟩, ⟨1950, 1950, 1751, 1950, 0⟩, ⟨1950, 1950, 1752, 1950, 0⟩,
   ⟨1950, 1950, 1753, 1950, 0⟩, ⟨1950, 1950, 1754, 1950, 0⟩]

/-- An empty liquidity zone (unread by the builder). -/
def lzNone : LiquidityZone := ⟨none, none, none⟩

/-- A no-cluster detector result. -/
def rcNone : RetailCluster := ⟨.NONE, 0, 0, RETAIL_CLUSTER_BAND⟩

/-- A no-footprint detector result. -/
def fpNone : FootprintSignal := ⟨false⟩

theorem scanFromAux_ne_accessError (w : List Candle) :
    ∀ fuel i, scanFromAux w fuel i ≠ SweepResult.accessError := by
  intro fuel
  induction fuel with
  | zero => intro i; simp [scanFromAux]
  | succ n ih =>
    intro i
    rw [scanFromAux]
    by_cases hg : i + 1 < w.length
    · have h0 : i - 1 < w.length := by omega
      have h1 : i < w.length := by omega
      simp only [if_pos hg, List.get?_eq_get h0, List.get?_eq_get h1, List.get?_eq_get hg]
      split
      · split
        · split
          · simp
          · exact ih (i + 1)
        · exact ih (i + 1)
      · exact ih (i + 1)
    · simp [if_neg hg]

theorem sweepQual_elim (w : List Candle) (i : ℕ)
    (h0 : i - 1 < w.length) (h1 : i < w.length) (hg : i + 1 < w.length)
    (hq : sweepQual w i) :
    ((w.get ⟨i, h1⟩).low < (w.get ⟨i - 1, h0⟩).low ∧
      (w.get ⟨i, h1⟩).low < (w.get ⟨i + 1, hg⟩).low) ∧
    lowerWick (w.get ⟨i, h1⟩) / sweepRange (w.get ⟨i, h1⟩) > 7/20 ∧
    (w.get ⟨i + 1, hg⟩).close > (w.get ⟨i + 1, hg⟩).open_ := by
  obtain ⟨p', c', n', hp', hc', hn', hA, hB, hC⟩ := hq
  rw [List.get?_eq_get h0] at hp'
  rw [List.get?_eq_get h1] at hc'
  rw [List.get?_eq_get hg] at hn'
  cases hp'
  cases hc'
  cases hn'
  exact ⟨hA, hB, hC⟩

theorem scanFromAux_signal_first (w : List Candle) :
    ∀ fuel i s c k, scanFromAux w fuel i = SweepResult.signal s c k →
      ∃ j, i ≤ j ∧ j + 1 < w.length ∧ sweepQual w j ∧
        (∀ m, i ≤ m → m < j → ¬ sweepQual w m) ∧
        w.get? j = some s ∧ w.get? (j + 1) = some c ∧ k = w.length - (j + 1) := by
  intro fuel
  induction fuel with
  | zero => intro i s c k h; simp [scanFromAux] at h
  | succ n ih =>
    intro i s c k h
    rw [scanFromAux] at h
    by_cases hg : i + 1 < w.length
    · have h0 : i - 1 < w.length := by omega
      have h1 : i < w.length := by omega
      simp only [if_pos hg, List.get?_eq_get h0, List.get?_eq_get h1, List.get?_eq_get hg] at h
      by_cases hc1 : (w.get ⟨i, h1⟩).low < (w.get ⟨i - 1, h0⟩).low ∧
          (w.get ⟨i, h1⟩).low < (w.get ⟨i + 1, hg⟩).low
      · rw [if_pos hc1] at h
        by_cases hc2 : lowerWick (w.get ⟨i, h1⟩) / sweepRange (w.get ⟨i, h1⟩) > 7/20
        · rw [if_pos hc2] at h
          by_cases hc3 : (w.get ⟨i + 1, hg⟩).close > (w.get ⟨i + 1, hg⟩).open_
          · rw [if_pos hc3] at h
            injection h with e1 e2 e3
            refine ⟨i, le_refl i, hg, ?_, ?_, ?_, ?_, ?_⟩
            · exact ⟨_, _, _, List.get?_eq_get h0, List.get?_eq_get h1, List.get?_eq_get hg,
                hc1, hc2, hc3⟩
            · intro m him hmj; omega
            · rw [List.get?_eq_get h1, e1]
            · rw [List.get?_eq_get hg, e2]
            · omega
          · rw [if_neg hc3] at h
            obtain ⟨j, hij, hjb, hq, hfirst, hjs, hjc, hk⟩ := ih (i + 1) s c k h
            refine ⟨j, by omega, hjb, hq, ?_, hjs, hjc, hk⟩
            intro m him hmj
            rcases eq_or_lt_of_le him with heq | hlt
            · subst heq
              intro hq'
              exact hc3 (sweepQual_elim w i h0 h1 hg hq').2.2
            · exact hfirst m (by omega) hmj
        · rw [if_neg hc2] at h
          obtain ⟨j, hij, hjb, hq, hfirst, hjs, hjc, hk⟩ := ih (i + 1) s c k h
          refine ⟨j, by omega, hjb, hq, ?_, hjs, hjc, hk⟩
          intro m him hmj
          rcases eq_or_lt_of_le him with heq | hlt
          · subst heq
            intro hq'
            exact hc2 (sweepQual_elim w i h0 h1 hg hq').2.1
          · exact hfirst m (by omega) hmj
      · rw [if_neg hc1] at h
        obtain ⟨j, hij, hjb, hq, hfirst, hjs, hjc, hk⟩ := ih (i + 1) s c k h
        refine ⟨j, by omega, hjb, hq, ?_, hjs, hjc, hk⟩
        intro m him hmj
        rcases eq_or_lt_of_le him with heq | hlt
        · subst heq
          intro hq'
          exact hc1 (sweepQual_elim w i h0 h1 hg hq').1
        · exact hfirst m (by omega) hmj
    · rw [if_neg hg] at h
      exact absurd h (by simp)

theorem detect_signal_spec (cs : List Candle) (lb : ℕ) (s c : Candle) (k : ℕ)
    (h : detect_sweep_and_green cs lb = SweepResult.signal s c k) :
    lb + 2 ≤ cs.length ∧
    ∃ j, 1 ≤ j ∧ j + 1 < (sweepWindow cs lb).length ∧ sweepQual (sweepWindow cs lb) j ∧
      (∀ m, 1 ≤ m → m < j → ¬ sweepQual (sweepWindow cs lb) m) ∧
      (sweepWindow cs lb).get? j = some s ∧
      (sweepWindow cs lb).get? (j + 1) = some c ∧
      k = (sweepWindow cs lb).length - (j + 1) := by
  rw [detect_sweep_and_green] at h
  by_cases hl : cs.length < lb + 2
  · rw [if_pos hl] at h
    exact absurd h (by simp)
  · rw [if_neg hl] at h
    exact ⟨by omega, scanFromAux_signal_first _ _ 1 s c k h⟩

theorem lowerWick_eq_max (c : Candle) : lowerWick c = max c.open_ c.close - c.low := by
  rw [lowerWick]
  split
  · rename_i h
    rw [max_eq_left (le_of_lt h)]
  · rename_i h
    push_neg at h
    rw [max_eq_right h]

/-- C1 (amended): whenever `detect_sweep_and_green` reports a signal, the
sweep candle satisfies `(max(open, close) - low) / max(high - low, 1e-6)
> 0.35` — the ratio the source computes measures the distance from the
TOP of the candle body down to the low (body plus lower wick), not the
wick beyond the body, over the clamped range. -/
theorem C1_wick_ratio_amended (cs : List Candle) (lb : ℕ) (s c : Candle) (k : ℕ)
    (h : detect_sweep_and_green cs lb = SweepResult.signal s c k) :
    (max s.open_ s.close - s.low) / sweepRange s > 7/20 := by
  obtain ⟨-, j, -, hjb, hq, -, hjs, -, -⟩ := detect_signal_spec cs lb s c k h
  obtain ⟨p', c', n', hp', hc', hn', -, hB, -⟩ := hq
  rw [hc'] at hjs
  cases hjs
  rw [← lowerWick_eq_max]
  exact hB

/-- C1 witness: on `exGoodSeries` the detector fires and the amended ratio
bound holds for its sweep candle. -/
theorem C1_wick_ratio_amended_witness :
    (max cGoodSweep.open_ cGoodSweep.close - cGoodSweep.low) / sweepRange cGoodSweep > 7/20 :=
  C1_wick_ratio_amended exGoodSeries 2 cGoodSweep cGoodConfirm 1 (by decide)

/-- C1 counterexample: on `exBigBodySeries` the detector reports a signal
whose sweep candle (open 1, high 10, low 0, close 9) has a wick beyond
the body of only 10% of the high-to-low range, not more than 35%: the
claim's ratio (bottom of body down to the low, over the range) does NOT
gate the signal. -/
theorem C1_counterexample :
    detect_sweep_and_green exBigBodySeries 2 =
      SweepResult.signal cBigBodySweep cBigBodyConfirm 1 ∧
    ¬ ((min cBigBodySweep.open_ cBigBodySweep.close - cBigBodySweep.low) /
        (cBigBodySweep.high - cBigBodySweep.low) > 7/20) := by
  constructor
  · decide
  · decide

/-- C7: when `detect_sweep_and_green` reports a signal, the reported
sweep candle sits at an interior index `j` of the newest `lookback+1`
window that satisfies all three tests, NO smaller interior index
satisfies them (the scan runs oldest to newest and stops at the first
match, so the oldest qualifying sweep wins), the confirm candle is the
candle immediately following the sweep, and the reported
index-from-the-end is consistent. -/
theorem C7_first_qualifying_sweep (cs : List Candle) (lb : ℕ) (s c : Candle) (k : ℕ)
    (h : detect_sweep_and_green cs lb = SweepResult.signal s c k) :
    ∃ j, 1 ≤ j ∧ j + 1 < (sweepWindow cs lb).length ∧ sweepQual (sweepWindow cs lb) j ∧
      (∀ m, 1 ≤ m → m < j → ¬ sweepQual (sweepWindow cs lb) m) ∧
      (sweepWindow cs lb).get? j = some s ∧
      (sweepWindow cs lb).get? (j + 1) = some c ∧
      k = (sweepWindow cs lb).length - (j + 1) :=
  (detect_signal_spec cs lb s c k h).2

/-- C7 witness: instantiation on the concrete series `exGoodSeries`. -/
theorem C7_first_qualifying_sweep_witness :
    ∃ j, 1 ≤ j ∧ j + 1 < (sweepWindow exGoodSeries 2).length ∧
      sweepQual (sweepWindow exGoodSeries 2) j ∧
      (∀ m, 1 ≤ m → m < j → ¬ sweepQual (sweepWindow exGoodSeries 2) m) ∧
      (sweepWindow exGoodSeries 2).get? j = some cGoodSweep ∧
      (sweepWindow exGoodSeries 2).get? (j + 1) = some cGoodConfirm ∧
      1 = (sweepWindow exGoodSeries 2).length - (j + 1) :=
  C7_first_qualifying_sweep exGoodSeries 2 cGoodSweep cGoodConfirm 1 (by decide)

/-- C9: a series shorter than `lookback+2` yields the insufficient-data
result, and on no input does the scan perform an out-of-range candle
access (the `accessError` outcome, which models a Python `IndexError`,
is unreachable). -/
theorem C9_insufficient_data_safe (cs : List Candle) (lb : ℕ) :
    (cs.length < lb + 2 → detect_sweep_and_green cs lb = SweepResult.insufficientData) ∧
    detect_sweep_and_green cs lb ≠ SweepResult.accessError := by
  constructor
  · intro hl
    rw [detect_sweep_and_green, if_pos hl]
  · rw [detect_sweep_and_green]
    by_cases hl : cs.length < lb + 2
    · rw [if_pos hl]
      simp
    · rw [if_neg hl]
      exact scanFromAux_ne_accessError _ _ _

/-- C9 witness: four candles are insufficient for lookback 5. -/
theorem C9_insufficient_data_safe_witness :
    exGoodSeries.length < 5 + 2 ∧
    detect_sweep_and_green exGoodSeries 5 = SweepResult.insufficientData :=
  ⟨by decide, (C9_insufficient_data_safe exGoodSeries 5).1 (by decide)⟩

/-- C10: any detector-reported confirm candle closes above its open (the
source implements only the low-sweep/green-confirm variant), so every
plan the pipeline builds from a detection has side LONG; the SHORT
branch of `build_trade_plan` is unreachable from detector output. -/
theorem C10_always_long (cs : List Candle) (lb : ℕ) (s c : Candle) (k : ℕ)
    (h : detect_sweep_and_green cs lb = SweepResult.signal s c k)
    (symbol : Instrument) (l15 l5 : Candle) (liq : LiquidityZone)
    (rc : RetailCluster) (fp : FootprintSignal) :
    c.close > c.open_ ∧
    (build_trade_plan symbol s c l15 l5 liq rc fp).side = Side.LONG := by
  obtain ⟨-, j, -, hjb, hq, -, -, hjc, -⟩ := detect_signal_spec cs lb s c k h
  obtain ⟨p', c', n', hp', hc', hn', -, -, hC⟩ := hq
  rw [hn'] at hjc
  cases hjc
  refine ⟨hC, ?_⟩
  simp only [build_trade_plan, if_pos hC]

/-- C10 witness: instantiation on `exGoodSeries` with the XAU symbol. -/
theorem C10_always_long_witness :
    cGoodConfirm.close > cGoodConfirm.open_ ∧
    (build_trade_plan Instrument.XAU_USD cGoodSweep cGoodConfirm cFill cFill
      lzNone rcNone fpNone).side = Side.LONG :=
  C10_always_long exGoodSeries 2 cGoodSweep cGoodConfirm 1 (by decide)
    Instrument.XAU_USD cFill cFill lzNone rcNone fpNone

theorem roundTo_abs_le (n : ℕ) (x : ℚ) : |roundTo n x - x| ≤ 1 / (2 * 10 ^ n) := by
  have h10 : (0:ℚ) < 10 ^ n := by positivity
  have hrw : roundTo n x - x = (((round (x * 10 ^ n) : ℤ) : ℚ) - x * 10 ^ n) / 10 ^ n := by
    rw [roundTo]
    field_simp
    ring
  rw [hrw, abs_div, abs_of_pos h10]
  have h2 : |((round (x * 10 ^ n) : ℤ) : ℚ) - x * 10 ^ n| ≤ 1/2 := by
    rw [abs_sub_comm]
    exact abs_sub_round (x * 10 ^ n)
  have := (div_le_div_right h10).mpr h2
  calc |((round (x * 10 ^ n) : ℤ) : ℚ) - x * 10 ^ n| / 10 ^ n
      ≤ (1/2) / 10 ^ n := this
    _ = 1 / (2 * 10 ^ n) := by rw [div_div]

theorem roundTo_bounds (n : ℕ) (x : ℚ) :
    x - 1 / (2 * 10 ^ n) ≤ roundTo n x ∧ roundTo n x ≤ x + 1 / (2 * 10 ^ n) := by
  have h := roundTo_abs_le n x
  rw [abs_le] at h
  constructor <;> linarith [h.1, h.2]

theorem nudge_long_ge (cand : ℚ) (rc : RetailCluster) (pip : ℚ) (hpip : 0 ≤ pip) :
    cand ≤ nudge_long cand rc pip := by
  rw [nudge_long]
  split
  · rename_i h
    have h2 := (abs_le.mp h.2).2
    linarith
  · exact le_refl cand

theorem nudge_short_le (cand : ℚ) (rc : RetailCluster) (pip : ℚ) (hpip : 0 ≤ pip) :
    nudge_short cand rc pip ≤ cand := by
  rw [nudge_short]
  split
  · rename_i h
    have h2 := (abs_le.mp h.2).1
    linarith
  · exact le_refl cand

theorem plan_order_long (e sl0 : ℚ) (n : ℕ) (d : ℚ)
    (hd : d ≤ e - sl0) (hu : 1 / (2 * 10 ^ n) < d / 2) :
    roundTo n sl0 < roundTo n e ∧
    roundTo n e < roundTo n (e + (e - sl0) * RR) ∧
    roundTo n e <
      roundTo n (roundTo n e + (roundTo n (e + (e - sl0) * RR) - roundTo n e) * (1/2)) ∧
    roundTo n (roundTo n e + (roundTo n (e + (e - sl0) * RR) - roundTo n e) * (1/2)) <
      roundTo n (e + (e - sl0) * RR) := by
  have hRR : RR = (4:ℚ) := rfl
  rw [hRR]
  obtain ⟨h1l, h1r⟩ := roundTo_bounds n e
  obtain ⟨h2l, h2r⟩ := roundTo_bounds n sl0
  obtain ⟨h3l, h3r⟩ := roundTo_bounds n (e + (e - sl0) * 4)
  obtain ⟨h4l, h4r⟩ :=
    roundTo_bounds n (roundTo n e + (roundTo n (e + (e - sl0) * 4) - roundTo n e) * (1/2))
  refine ⟨by linarith, by linarith, by linarith, by linarith⟩

theorem plan_order_short (e sl0 : ℚ) (n : ℕ) (d : ℚ)
    (hd : d ≤ sl0 - e) (hu : 1 / (2 * 10 ^ n) < d / 2) :
    roundTo n (e - (sl0 - e) * RR) <
      roundTo n (roundTo n e - (roundTo n e - roundTo n (e - (sl0 - e) * RR)) * (1/2)) ∧
    roundTo n (roundTo n e - (roundTo n e - roundTo n (e - (sl0 - e) * RR)) * (1/2)) <
      roundTo n e ∧
    roundTo n e < roundTo n sl0 := by
  have hRR : RR = (4:ℚ) := rfl
  rw [hRR]
  obtain ⟨h1l, h1r⟩ := roundTo_bounds n e
  obtain ⟨h2l, h2r⟩ := roundTo_bounds n sl0
  obtain ⟨h3l, h3r⟩ := roundTo_bounds n (e - (sl0 - e) * 4)
  obtain ⟨h4l, h4r⟩ :=
    roundTo_bounds n (roundTo n e - (roundTo n e - roundTo n (e - (sl0 - e) * 4)) * (1/2))
  refine ⟨by linarith, by linarith, by linarith⟩

/-- C6: the confidence of every plan `build_trade_plan` produces equals
`min(0.95, 0.5 + 0.2 + (0.15 if footprint) + (0.1 if cluster side is
none))`, and it always lies in `[0, 0.95]`.  The value depends only on
the footprint flag and the cluster side; the builder is a pure function
of its arguments, so there is no wall-clock or randomness dependency. -/
theorem C6_confidence_formula (symbol : Instrument) (sweep confirm l15 l5 : Candle)
    (liq : LiquidityZone) (rc : RetailCluster) (fp : FootprintSignal) :
    (build_trade_plan symbol sweep confirm l15 l5 liq rc fp).confidence =
      min (19/20) (1/2 + 1/5 + (if fp.footprint then 3/20 else 0) +
        (if rc.side = ClusterSide.NONE then 1/10 else 0)) ∧
    0 ≤ (build_trade_plan symbol sweep confirm l15 l5 liq rc fp).confidence ∧
    (build_trade_plan symbol sweep confirm l15 l5 liq rc fp).confidence ≤ 19/20 := by
  have hc : (build_trade_plan symbol sweep confirm l15 l5 liq rc fp).confidence =
      planConfidence rc fp := by
    simp only [build_trade_plan]
    split
    · rfl
    · rfl
  refine ⟨hc.trans rfl, ?_, ?_⟩
  · rw [hc, planConfidence]
    refine le_min (by norm_num) ?_
    split_ifs <;> norm_num
  · rw [hc, planConfidence]
    exact min_le_left _ _

/-- C5: the anti-cluster nudge of `build_trade_plan` (whose LONG branch
computes `roundTo` of `nudge_long` of the entry candidate, and the SHORT
branch the mirror): when the cluster side matches the plan side (BUY for
LONG, SELL for SHORT) and the unadjusted candidate lies within one band
of the cluster price, the nudged entry lies strictly more than one
band-width away from the cluster price; in every other case the
candidate is left unchanged. -/
theorem C5_anti_cluster_nudge (cand : ℚ) (rc : RetailCluster) (pip : ℚ) (hpip : 0 < pip) :
    ((rc.side = ClusterSide.BUY ∧ |cand - rc.cluster_price| ≤ rc.band) →
      |nudge_long cand rc pip - rc.cluster_price| > rc.band) ∧
    (¬(rc.side = ClusterSide.BUY ∧ |cand - rc.cluster_price| ≤ rc.band) →
      nudge_long cand rc pip = cand) ∧
    ((rc.side = ClusterSide.SELL ∧ |cand - rc.cluster_price| ≤ rc.band) →
      |nudge_short cand rc pip - rc.cluster_price| > rc.band) ∧
    (¬(rc.side = ClusterSide.SELL ∧ |cand - rc.cluster_price| ≤ rc.band) →
      nudge_short cand rc pip = cand) := by
  refine ⟨?_, ?_, ?_, ?_⟩
  · intro h
    rw [nudge_long, if_pos h]
    have hband : 0 ≤ rc.band := le_trans (abs_nonneg _) h.2
    have he : rc.cluster_price + rc.band + pip * 1 - rc.cluster_price = rc.band + pip * 1 := by
      ring
    rw [he, abs_of_nonneg (by linarith)]
    linarith
  · intro h
    rw [nudge_long, if_neg h]
  · intro h
    rw [nudge_short, if_pos h]
    have hband : 0 ≤ rc.band := le_trans (abs_nonneg _) h.2
    have he : rc.cluster_price - rc.band - pip * 1 - rc.cluster_price = -(rc.band + pip * 1) := by
      ring
    rw [he, abs_neg, abs_of_nonneg (by linarith)]
    linarith
  · intro h
    rw [nudge_short, if_neg h]

/-- C5 witness: a BUY cluster at 10 with band 0.15 and candidate 10 (in
band) is nudged to 10.16, strictly more than one band away; with the
candidate at 20 (out of band) it is untouched. -/
theorem C5_anti_cluster_nudge_witness :
    (0:ℚ) < 1/100 ∧
    |nudge_long 10 ⟨ClusterSide.BUY, 10, 5, 3/20⟩ (1/100) - 10| > 3/20 ∧
    nudge_long 20 ⟨ClusterSide.BUY, 10, 5, 3/20⟩ (1/100) = 20 :=
  ⟨by norm_num,
    (C5_anti_cluster_nudge 10 ⟨ClusterSide.BUY, 10, 5, 3/20⟩ (1/100) (by norm_num)).1
      (by constructor
          · rfl
          · norm_num),
    (C5_anti_cluster_nudge 20 ⟨ClusterSide.BUY, 10, 5, 3/20⟩ (1/100) (by norm_num)).2.1
      (by intro h
          have := h.2
          norm_num at this)⟩

/-- C4: for a valid sweep/confirm pair (sweep low strictly below the
confirm low with a green confirm for LONG; mirrored for SHORT) and a
confirm candle whose close lies between its low and high, the rounded
plan satisfies, for LONG, `sl < entry < tp` with `tp1` strictly between
`entry` and `tp`, and the mirrored strict inequalities for SHORT. -/
theorem C4_plan_ordering (symbol : Instrument) (sweep confirm l15 l5 : Candle)
    (liq : LiquidityZone) (rc : RetailCluster) (fp : FootprintSignal)
    (hwf : confirm.low ≤ confirm.close ∧ confirm.close ≤ confirm.high)
    (hvalid : (confirm.close > confirm.open_ ∧ sweep.low < confirm.low) ∨
      (confirm.close < confirm.open_ ∧ confirm.high < sweep.high)) :
    ((build_trade_plan symbol sweep confirm l15 l5 liq rc fp).side = Side.LONG →
      (build_trade_plan symbol sweep confirm l15 l5 liq rc fp).sl <
        (build_trade_plan symbol sweep confirm l15 l5 liq rc fp).entry ∧
      (build_trade_plan symbol sweep confirm l15 l5 liq rc fp).entry <
        (build_trade_plan symbol sweep confirm l15 l5 liq rc fp).tp ∧
      (build_trade_plan symbol sweep confirm l15 l5 liq rc fp).entry <
        (build_trade_plan symbol sweep confirm l15 l5 liq rc fp).tp1 ∧
      (build_trade_plan symbol sweep confirm l15 l5 liq rc fp).tp1 <
        (build_trade_plan symbol sweep confirm l15 l5 liq rc fp).tp) ∧
    ((build_trade_plan symbol sweep confirm l15 l5 liq rc fp).side = Side.SHORT →
      (build_trade_plan symbol sweep confirm l15 l5 liq rc fp).tp <
        (build_trade_plan symbol sweep confirm l15 l5 liq rc fp).entry ∧
      (build_trade_plan symbol sweep confirm l15 l5 liq rc fp).entry <
        (build_trade_plan symbol sweep confirm l15 l5 liq rc fp).sl ∧
      (build_trade_plan symbol sweep confirm l15 l5 liq rc fp).tp <
        (build_trade_plan symbol sweep confirm l15 l5 liq rc fp).tp1 ∧
      (build_trade_plan symbol sweep confirm l15 l5 liq rc fp).tp1 <
        (build_trade_plan symbol sweep confirm l15 l5 liq rc fp).entry) := by
  have hpip : 0 < pip_val symbol := by
    cases symbol <;> norm_num [pip_val, isXau]
  have hu : 1 / (2 * 10 ^ roundPrec symbol) < sl_distance symbol / 2 := by
    cases symbol <;>
      norm_num [roundPrec, sl_distance, pip_val, isXau, XAU_SL_PIPS, BTC_SL_USD]
  rcases hvalid with ⟨hgreen, hsw⟩ | ⟨hred, hsw⟩
  · -- LONG branch of the builder
    have hside : (build_trade_plan symbol sweep confirm l15 l5 liq rc fp).side = Side.LONG := by
      simp only [build_trade_plan]
      rw [if_pos hgreen]
    have hentry : (build_trade_plan symbol sweep confirm l15 l5 liq rc fp).entry =
        roundTo (roundPrec symbol)
          (nudge_long (entry_candidate_long sweep confirm (pip_val symbol)) rc
            (pip_val symbol)) := by
      simp only [build_trade_plan]
      rw [if_pos hgreen]
    have hsl : (build_trade_plan symbol sweep confirm l15 l5 liq rc fp).sl =
        roundTo (roundPrec symbol) (sweep.low - sl_distance symbol) := by
      simp only [build_trade_plan]
      rw [if_pos hgreen]
    have htp : (build_trade_plan symbol sweep confirm l15 l5 liq rc fp).tp =
        roundTo (roundPrec symbol)
          (nudge_long (entry_candidate_long sweep confirm (pip_val symbol)) rc
              (pip_val symbol) +
            (nudge_long (entry_candidate_long sweep confirm (pip_val symbol)) rc
                (pip_val symbol) -
              (sweep.low - sl_distance symbol)) * RR) := by
      simp only [build_trade_plan]
      rw [if_pos hgreen]
    have htp1 : (build_trade_plan symbol sweep confirm l15 l5 liq rc fp).tp1 =
        roundTo (roundPrec symbol)
          (roundTo (roundPrec symbol)
              (nudge_long (entry_candidate_long sweep confirm (pip_val symbol)) rc
                (pip_val symbol)) +
            (roundTo (roundPrec symbol)
                (nudge_long (entry_candidate_long sweep confirm (pip_val symbol)) rc
                    (pip_val symbol) +
                  (nudge_long (entry_candidate_long sweep confirm (pip_val symbol)) rc
                      (pip_val symbol) -
                    (sweep.low - sl_distance symbol)) * RR) -
              roundTo (roundPrec symbol)
                (nudge_long (entry_candidate_long sweep confirm (pip_val symbol)) rc
                  (pip_val symbol))) * (1/2)) := by
      simp only [build_trade_plan]
      rw [if_pos hgreen]
    have h1 : (confirm.close + sweep.low) / 2 ≤
        entry_candidate_long sweep confirm (pip_val symbol) := by
      rw [entry_candidate_long]
      exact le_max_right _ _
    have h2 : entry_candidate_long sweep confirm (pip_val symbol) ≤
        nudge_long (entry_candidate_long sweep confirm (pip_val symbol)) rc
          (pip_val symbol) :=
      nudge_long_ge _ _ _ (le_of_lt hpip)
    have h3 : sweep.low < confirm.close := lt_of_lt_of_le hsw hwf.1
    have hd : sl_distance symbol ≤
        nudge_long (entry_candidate_long sweep confirm (pip_val symbol)) rc
            (pip_val symbol) -
          (sweep.low - sl_distance symbol) := by
      linarith
    obtain ⟨o1, o2, o3, o4⟩ :=
      plan_order_long
        (nudge_long (entry_candidate_long sweep confirm (pip_val symbol)) rc
          (pip_val symbol))
        (sweep.low - sl_distance symbol) (roundPrec symbol) (sl_distance symbol) hd hu
    constructor
    · intro _
      rw [hentry, hsl, htp, htp1]
      exact ⟨o1, o2, o3, o4⟩
    · intro hcontra
      rw [hside] at hcontra
      exact Side.noConfusion hcontra
  · -- SHORT branch of the builder
    have hngreen : ¬ confirm.close > confirm.open_ := not_lt.mpr (le_of_lt hred)
    have hside : (build_trade_plan symbol sweep confirm l15 l5 liq rc fp).side = Side.SHORT := by
      simp only [build_trade_plan]
      rw [if_neg hngreen]
    have hentry : (build_trade_plan symbol sweep confirm l15 l5 liq rc fp).entry =
        roundTo (roundPrec symbol)
          (nudge_short (entry_candidate_short sweep confirm (pip_val symbol)) rc
            (pip_val symbol)) := by
      simp only [build_trade_plan]
      rw [if_neg hngreen]
    have hsl : (build_trade_plan symbol sweep confirm l15 l5 liq rc fp).sl =
        roundTo (roundPrec symbol) (sweep.high + sl_distance symbol) := by
      simp only [build_trade_plan]
      rw [if_neg hngreen]
    have htp : (build_trade_plan symbol sweep confirm l15 l5 liq rc fp).tp =
        roundTo (roundPrec symbol)
          (nudge_short (entry_candidate_short sweep confirm (pip_val symbol)) rc
              (pip_val symbol) -
            ((sweep.high + sl_distance symbol) -
              nudge_short (entry_candidate_short sweep confirm (pip_val symbol)) rc
                (pip_val symbol)) * RR) := by
      simp only [build_trade_plan]
      rw [if_neg hngreen]
    have htp1 : (build_trade_plan symbol sweep confirm l15 l5 liq rc fp).tp1 =
        roundTo (roundPrec symbol)
          (roundTo (roundPrec symbol)
              (nudge_short (entry_candidate_short sweep confirm (pip_val symbol)) rc
                (pip_val symbol)) -
            (roundTo (roundPrec symbol)
                (nudge_short (entry_candidate_short sweep confirm (pip_val symbol)) rc
                  (pip_val symbol)) -
              roundTo (roundPrec symbol)
                (nudge_short (entry_candidate_short sweep confirm (pip_val symbol)) rc
                    (pip_val symbol) -
                  ((sweep.high + sl_distance symbol) -
                    nudge_short (entry_candidate_short sweep confirm (pip_val symbol)) rc
                      (pip_val symbol)) * RR)) * (1/2)) := by
      simp only [build_trade_plan]
      rw [if_neg hngreen]
    have h1 : entry_candidate_short sweep confirm (pip_val symbol) ≤
        (confirm.close + sweep.high) / 2 := by
      rw [entry_candidate_short]
      exact min_le_right _ _
    have h2 : nudge_short (entry_candidate_short sweep confirm (pip_val symbol)) rc
          (pip_val symbol) ≤
        entry_candidate_short sweep confirm (pip_val symbol) :=
      nudge_short_le _ _ _ (le_of_lt hpip)
    have h3 : confirm.close < sweep.high := lt_of_le_of_lt hwf.2 hsw
    have hd : sl_distance symbol ≤
        (sweep.high + sl_distance symbol) -
          nudge_short (entry_candidate_short sweep confirm (pip_val symbol)) rc
            (pip_val symbol) := by
      linarith
    obtain ⟨o1, o2, o3⟩ :=
      plan_order_short
        (nudge_short (entry_candidate_short sweep confirm (pip_val symbol)) rc
          (pip_val symbol))
        (sweep.high + sl_distance symbol) (roundPrec symbol) (sl_distance symbol) hd hu
    constructor
    · intro hcontra
      rw [hside] at hcontra
      exact Side.noConfusion hcontra
    · intro _
      rw [hentry, hsl, htp, htp1]
      exact ⟨lt_trans o1 o2, o3, o1, o2⟩

/-- C4 witness: a concrete XAU LONG plan built from a valid pair
satisfies all four strict inequalities. -/
theorem C4_plan_ordering_witness :
    (build_trade_plan Instrument.XAU_USD cGoodSweep cGoodConfirm cFill cFill
        lzNone rcNone fpNone).sl <
      (build_trade_plan Instrument.XAU_USD cGoodSweep cGoodConfirm cFill cFill
        lzNone rcNone fpNone).entry ∧
    (build_trade_plan Instrument.XAU_USD cGoodSweep cGoodConfirm cFill cFill
        lzNone rcNone fpNone).entry <
      (build_trade_plan Instrument.XAU_USD cGoodSweep cGoodConfirm cFill cFill
        lzNone rcNone fpNone).tp ∧
    (build_trade_plan Instrument.XAU_USD cGoodSweep cGoodConfirm cFill cFill
        lzNone rcNone fpNone).entry <
      (build_trade_plan Instrument.XAU_USD cGoodSweep cGoodConfirm cFill cFill
        lzNone rcNone fpNone).tp1 ∧
    (build_trade_plan Instrument.XAU_USD cGoodSweep cGoodConfirm cFill cFill
        lzNone rcNone fpNone).tp1 <
      (build_trade_plan Instrument.XAU_USD cGoodSweep cGoodConfirm cFill cFill
        lzNone rcNone fpNone).tp :=
  (C4_plan_ordering Instrument.XAU_USD cGoodSweep cGoodConfirm cFill cFill
      lzNone rcNone fpNone (by constructor <;> norm_num [cGoodConfirm])
      (Or.inl ⟨by norm_num [cGoodConfirm], by norm_num [cGoodSweep, cGoodConfirm]⟩)).1
    (by decide)

theorem clusterFold_invariant (band : ℚ) (vs : List ℚ) :
    ∀ (l : List ℚ) (acc : ℕ × Option ℚ), (acc.2 = none → acc.1 = 0) →
      (l.foldl (clusterStep band vs) acc).2 = none →
      (l.foldl (clusterStep band vs) acc).1 = 0 := by
  intro l
  induction l with
  | nil => intro acc h; exact h
  | cons v t ih =>
    intro acc h
    simp only [List.foldl_cons]
    apply ih
    simp only [clusterStep]
    split
    · intro hnone
      exact absurd hnone (by simp)
    · exact h

theorem cluster_metric_pos_center (band : ℚ) (values : List ℚ)
    (h : 0 < (cluster_metric band values).1) :
    ∃ p, (cluster_metric band values).2 = some p := by
  rcases hc : (cluster_metric band values).2 with _ | p
  · exfalso
    simp only [cluster_metric] at hc h
    have h0 := clusterFold_invariant band (values.insertionSort (· ≤ ·))
      (values.insertionSort (· ≤ ·)) (0, none) (fun _ => rfl) hc
    omega
  · exact ⟨p, rfl⟩

theorem rcThreshold_ge_three (cs : List Candle) (lbm : ℕ) : 3 ≤ rcThreshold cs lbm :=
  le_max_left _ _

set_option maxHeartbeats 1600000 in
set_option maxRecDepth 100000 in
/-- C8: `detect_retail_stop_cluster` reports SELL exactly when the
highs-side density count reaches `max(3, ⌊8% of n⌋)` (so when both sides
reach it, SELL wins), BUY exactly when the highs side misses the
threshold but the lows side reaches it, and `"none"` otherwise; and on
the 40-candle example with 5 highs in a 0.15 band at 1950 it reports
SELL at cluster price 1950 with count 5. -/
theorem C8_cluster_threshold :
    (∀ (cs : List Candle) (band : ℚ) (lbm : ℕ),
      ((detect_retail_stop_cluster cs band lbm).side = ClusterSide.SELL ↔
        cs ≠ [] ∧
          rcThreshold cs lbm ≤
            (cluster_metric band ((rcWindow cs lbm).map (·.high))).1) ∧
      ((detect_retail_stop_cluster cs band lbm).side = ClusterSide.BUY ↔
        cs ≠ [] ∧
          (cluster_metric band ((rcWindow cs lbm).map (·.high))).1 < rcThreshold cs lbm ∧
          rcThreshold cs lbm ≤
            (cluster_metric band ((rcWindow cs lbm).map (·.low))).1)) ∧
    detect_retail_stop_cluster exClusterSeries (3/20) 200 =
      ⟨ClusterSide.SELL, 1950, 5, 3/20⟩ := by
  constructor
  · intro cs band lbm
    by_cases hemp : cs.isEmpty
    · have hnil : cs = [] := List.isEmpty_iff.mp hemp
      constructor
      · constructor
        · intro hside
          rw [detect_retail_stop_cluster, if_pos hemp] at hside
          exact ClusterSide.noConfusion hside
        · rintro ⟨hne, -⟩
          exact absurd hnil hne
      · constructor
        · intro hside
          rw [detect_retail_stop_cluster, if_pos hemp] at hside
          exact ClusterSide.noConfusion hside
        · rintro ⟨hne, -⟩
          exact absurd hnil hne
    · have hne : cs ≠ [] := fun h => hemp (by rw [h]; rfl)
      by_cases hth : rcThreshold cs lbm ≤
          (cluster_metric band ((rcWindow cs lbm).map (·.high))).1
      · obtain ⟨p, hp⟩ := cluster_metric_pos_center band ((rcWindow cs lbm).map (·.high))
          (lt_of_lt_of_le (by omega) (le_trans (rcThreshold_ge_three cs lbm) hth))
        have hres : detect_retail_stop_cluster cs band lbm =
            ⟨ClusterSide.SELL, p,
              (cluster_metric band ((rcWindow cs lbm).map (·.high))).1, band⟩ := by
          rw [detect_retail_stop_cluster, if_neg hemp]
          simp only [if_pos hth, hp]
        rw [hres]
        constructor
        · simp [hth, hne]
        · simp [hth]
      · by_cases htl : rcThreshold cs lbm ≤
            (cluster_metric band ((rcWindow cs lbm).map (·.low))).1
        · obtain ⟨p, hp⟩ := cluster_metric_pos_center band ((rcWindow cs lbm).map (·.low))
            (lt_of_lt_of_le (by omega) (le_trans (rcThreshold_ge_three cs lbm) htl))
          have hres : detect_retail_stop_cluster cs band lbm =
              ⟨ClusterSide.BUY, p,
                (cluster_metric band ((rcWindow cs lbm).map (·.low))).1, band⟩ := by
            rw [detect_retail_stop_cluster, if_neg hemp]
            simp only [if_neg hth, if_pos htl, hp]
          rw [hres]
          constructor
          · simp [hth]
          · simp [hne, htl]
            omega
        · have hres : detect_retail_stop_cluster cs band lbm =
              ⟨ClusterSide.NONE, 0, 0, band⟩ := by
            rw [detect_retail_stop_cluster, if_neg hemp]
            simp only [if_neg hth, if_neg htl]
          rw [hres]
          constructor
          · simp [hth]
          · simp [htl]
  · decide

/-- C8 witness: the characterization applied at the 40-candle example,
whose reported side is SELL. -/
theorem C8_cluster_threshold_witness :
    exClusterSeries ≠ [] ∧
    rcThreshold exClusterSeries 200 ≤
      (cluster_metric (3/20) ((rcWindow exClusterSeries 200).map (·.high))).1 :=
  ((C8_cluster_threshold.1 exClusterSeries (3/20) 200).1).mp
    (by rw [C8_cluster_threshold.2])

theorem postOpenStep_count (acc : AlertsToday × List Msg) (a : Option ℚ) :
    (postOpenStep acc a).1.count ≤ acc.1.count + 1 := by
  cases a with
  | none => simp [postOpenStep]
  | some conf =>
    simp only [postOpenStep]
    split
    · simp
    · simp

theorem postOpen_foldl_count (l : List (Option ℚ)) :
    ∀ acc : AlertsToday × List Msg,
      (l.foldl postOpenStep acc).1.count ≤ acc.1.count + l.length := by
  induction l with
  | nil => intro acc; simp
  | cons a t ih =>
    intro acc
    simp only [List.foldl_cons, List.length_cons]
    have h1 := ih (postOpenStep acc a)
    have h2 := postOpenStep_count acc a
    omega

theorem postOpen_foldl_msgs_mono (l : List (Option ℚ)) :
    ∀ (acc : AlertsToday × List Msg) (m : Msg), m ∈ acc.2 →
      m ∈ (l.foldl postOpenStep acc).2 := by
  induction l with
  | nil => intro acc m h; exact h
  | cons a t ih =>
    intro acc m h
    simp only [List.foldl_cons]
    apply ih
    cases a with
    | none => exact List.mem_append_left _ h
    | some conf =>
      simp only [postOpenStep]
      split
      · exact List.mem_append_left _ h
      · exact List.mem_append_left _ h

theorem postOpen_foldl_planAlert (l : List (Option ℚ)) :
    ∀ (acc : AlertsToday × List Msg) (conf : ℚ), some conf ∈ l → 13/20 ≤ conf →
      Msg.planAlert conf ∈ (l.foldl postOpenStep acc).2 := by
  induction l with
  | nil => intro acc conf h _; simp at h
  | cons a t ih =>
    intro acc conf h hconf
    simp only [List.foldl_cons]
    rcases List.mem_cons.mp h with heq | hmem
    · subst heq
      apply postOpen_foldl_msgs_mono
      simp only [postOpenStep, if_pos hconf]
      exact List.mem_append_right _ (by simp)
    · exact ih _ conf hmem hconf

/-- C2 counterexample: two post-open cycles on the same calendar date —
the first sends one qualifying plan alert (counter 0 to 1), the second
analyzes both instruments, each with a qualifying plan — drive the daily
counter to 3, strictly above `MAX_ALERTS_PER_DAY = 2`: the cap is
checked only at cycle entry, never per alert inside the loop. -/
theorem C2_counterexample :
    (job_post_open
        (job_post_open ⟨0, some 0⟩ 0 [some (7/10), none]).1
        0 [some (7/10), some (7/10)]).1.count = 3 ∧
    MAX_ALERTS_PER_DAY < 3 := by
  constructor
  · decide
  · decide

/-- C2 (amended): across any runs of `job_post_open` with at most two
analyses per cycle (the source analyzes exactly XAU and BTC), the daily
counter never exceeds `MAX_ALERTS_PER_DAY + 1 = 3`: a cycle is entered
only when the counter is below the cap but may then add one alert per
instrument without re-checking.  On a date change the run behaves
exactly as if the counter had been reset to zero on the new date. -/
theorem C2_daily_cap_amended (s : AlertsToday) (today : ℤ) (analyses : List (Option ℚ))
    (hlen : analyses.length ≤ 2) :
    (s.count ≤ MAX_ALERTS_PER_DAY + 1 →
      (job_post_open s today analyses).1.count ≤ MAX_ALERTS_PER_DAY + 1) ∧
    (s.date ≠ some today →
      job_post_open s today analyses = job_post_open ⟨0, some today⟩ today analyses) := by
  constructor
  · intro hcount
    simp only [job_post_open]
    by_cases hdate : s.date = some today
    · rw [if_pos hdate]
      by_cases hcap : MAX_ALERTS_PER_DAY ≤ s.count
      · rw [if_pos hcap]
        exact hcount
      · rw [if_neg hcap]
        have h1 := postOpen_foldl_count analyses (s, [Msg.header])
        have h2 : ((s, [Msg.header]) : AlertsToday × List Msg).1.count = s.count := rfl
        simp only [MAX_ALERTS_PER_DAY] at hcap ⊢
        omega
    · rw [if_neg hdate]
      rw [if_neg (by simp [MAX_ALERTS_PER_DAY])]
      have h1 := postOpen_foldl_count analyses (⟨0, some today⟩, [Msg.header])
      have h2 : ((⟨0, some today⟩, [Msg.header]) : AlertsToday × List Msg).1.count = 0 := rfl
      simp only [MAX_ALERTS_PER_DAY]
      omega
  · intro hdate
    simp only [job_post_open]
    rw [if_neg hdate]
    simp

/-- C2 witness: a state already at 3 stays at 3 (entry check), and a
stale-date state behaves as freshly reset. -/
theorem C2_daily_cap_amended_witness :
    ([some ((7:ℚ)/10), some (7/10)] : List (Option ℚ)).length ≤ 2 ∧
    (⟨3, some 0⟩ : AlertsToday).count ≤ MAX_ALERTS_PER_DAY + 1 ∧
    (job_post_open ⟨3, some 0⟩ 0 [some (7/10), some (7/10)]).1.count ≤
      MAX_ALERTS_PER_DAY + 1 ∧
    job_post_open ⟨5, some 1⟩ 0 [some ((7:ℚ)/10)] =
      job_post_open ⟨0, some 0⟩ 0 [some (7/10)] :=
  ⟨by decide, by decide,
    (C2_daily_cap_amended ⟨3, some 0⟩ 0 [some (7/10), some (7/10)] (by decide)).1 (by decide),
    (C2_daily_cap_amended ⟨5, some 1⟩ 0 [some (7/10)] (by decide)).2 (by decide)⟩

/-- C3 counterexample: in the very cycle in which a qualifying plan
(confidence 0.7) is produced, `job_post_open` already emits its alert —
there is no ARMED state waiting for a later price check against the
entry — and the state surviving the cycle is only the counter and the
date, holding no plan. -/
theorem C3_counterexample :
    Msg.planAlert (7/10) ∈ (job_post_open ⟨0, some 0⟩ 0 [some (7/10), none]).2 ∧
    (job_post_open ⟨0, some 0⟩ 0 [some (7/10), none]).1 = ⟨1, some 0⟩ := by
  constructor
  · decide
  · decide

/-- C3 (amended): the source keeps no per-instrument plan slot at all.
Whenever a cycle is entered under the daily cap (after the date reset)
and one of its analyses carries a qualifying plan (confidence at least
0.65), that plan's alert is emitted within the same cycle's output; the
only state carried across cycles is the alert counter and its date, so
no plan is ever armed — the at-most-one-armed-plan bound holds
vacuously, and no later price check exists or is needed. -/
theorem C3_immediate_alert_amended (s : AlertsToday) (today : ℤ)
    (analyses : List (Option ℚ)) (conf : ℚ)
    (hcap : (if s.date = some today then s else ⟨0, some today⟩).count < MAX_ALERTS_PER_DAY)
    (hmem : some conf ∈ analyses) (hconf : 13/20 ≤ conf) :
    Msg.planAlert conf ∈ (job_post_open s today analyses).2 := by
  simp only [job_post_open]
  rw [if_neg (not_le.mpr hcap)]
  exact postOpen_foldl_planAlert analyses _ conf hmem hconf

/-- C3 witness: instantiation at a fresh state and one qualifying
analysis. -/
theorem C3_immediate_alert_amended_witness :
    Msg.planAlert ((7:ℚ)/10) ∈ (job_post_open ⟨0, some 0⟩ 0 [none, some (7/10)]).2 :=
  C3_immediate_alert_amended ⟨0, some 0⟩ 0 [none, some (7/10)] (7/10)
    (by decide) (by decide) (by decide)
